import Mathlib

/-
Verification of the WebGPU compute-kernel shader generation and pipeline
caching subsystem of the onnxruntime WebGPU execution provider excerpt:
program cache key calculation (program_cache_key.cc), uniform buffer layout
(ProgramArtifact constructor in program_manager.cc), dispatch-group-size
normalization (ProgramManager::NormalizeDispatchGroupSize), shader
entry-point generation and limit checks (shader_helper.h / shader_helper.cc),
and the program cache map (ProgramManager::Get / ProgramManager::Set).

Modelling conventions:
- C++ std::string values are Lean String; stream insertion of an unsigned
  integer is the decimal rendering natDec below; stream insertion of a bool
  is "1" / "0" (no boolalpha is set on the streams).
- size_t / uint32_t values are Nat; where a 32-bit overflow can change
  behaviour (the workgroup-size product check and the SafeInt<uint32_t>
  conversions in the dispatch normalizer) the reduction modulo 2^32 or the
  range check is written out explicitly.
- double arithmetic in NormalizeDispatchGroupSize (product, sqrt, cbrt,
  ceil) is idealized to exact arithmetic on naturals: ceilSqrtNat and
  ceilCbrtNat are the exact ceiling roots.
- Fallible code (ORT_ENFORCE / ORT_RETURN_IF / SafeInt exceptions) is
  modelled with Except / Option results.
-/

set_option maxRecDepth 8192

namespace WebgpuSpec

/-! Decimal rendering of unsigned integers, as produced by the classic-locale
std::ostream insertion operators used by the cache key calculator and the
shader source generator. -/

/-- Decimal digit character for a value below ten (codepoint 48 + d). -/
def digitChar (d : Nat) : Char := Char.ofNat (48 + d)

/-- Fueled most-significant-first decimal rendering of a natural number.
With fuel above n this is exactly the decimal text std::ostream produces. -/
def natDecChars : Nat → Nat → List Char
  | 0, _ => []
  | fuel + 1, n =>
    if n < 10 then [digitChar n] else natDecChars fuel (n / 10) ++ [digitChar (n % 10)]

/-- Decimal rendering of a natural number as a string (std::ostream `<<` of
an unsigned integer under the classic locale). -/
def natDec (n : Nat) : String := ⟨natDecChars (n + 1) n⟩

/-- Fold a digit list back to the value it denotes. -/
def decValAux (acc : Nat) : List Char → Nat
  | [] => acc
  | c :: cs => decValAux (acc * 10 + (c.toNat - 48)) cs

theorem toNat_digitChar {d : Nat} (h : d < 10) : (digitChar d).toNat = 48 + d := by
  interval_cases d <;> decide

theorem decValAux_nil (acc : Nat) : decValAux acc [] = acc := rfl

theorem decValAux_cons (acc : Nat) (c : Char) (cs : List Char) :
    decValAux acc (c :: cs) = decValAux (acc * 10 + (c.toNat - 48)) cs := rfl

theorem decValAux_append (acc : Nat) (l1 l2 : List Char) :
    decValAux acc (l1 ++ l2) = decValAux (decValAux acc l1) l2 := by
  induction l1 generalizing acc with
  | nil => rfl
  | cons c cs ih => rw [List.cons_append, decValAux_cons, decValAux_cons, ih]

theorem decValAux_natDecChars : ∀ fuel n, n < fuel → decValAux 0 (natDecChars fuel n) = n := by
  intro fuel
  induction fuel with
  | zero => intro n h; omega
  | succ fuel ih =>
    intro n h
    by_cases h10 : n < 10
    · simp only [natDecChars, if_pos h10]
      rw [decValAux_cons, toNat_digitChar h10, decValAux_nil]
      omega
    · have hdiv : n / 10 < n := Nat.div_lt_self (by omega) (by omega)
      simp only [natDecChars, if_neg h10]
      rw [decValAux_append, ih (n / 10) (by omega), decValAux_cons,
        toNat_digitChar (Nat.mod_lt n (by omega)), decValAux_nil]
      omega

theorem natDecChars_inj {m n : Nat}
    (h : natDecChars (m + 1) m = natDecChars (n + 1) n) : m = n := by
  have hm := decValAux_natDecChars (m + 1) m (Nat.lt_succ_self m)
  have hn := decValAux_natDecChars (n + 1) n (Nat.lt_succ_self n)
  rw [h] at hm
  omega

theorem natDec_inj {m n : Nat} (h : natDec m = natDec n) : m = n := by
  have hd : natDecChars (m + 1) m = natDecChars (n + 1) n := by
    have := congrArg String.data h
    simpa [natDec] using this
  exact natDecChars_inj hd

theorem natDecChars_digits :
    ∀ fuel n, n < fuel → ∀ c ∈ natDecChars fuel n, 48 ≤ c.toNat ∧ c.toNat ≤ 57 := by
  intro fuel
  induction fuel with
  | zero => intro n h; omega
  | succ fuel ih =>
    intro n h c hc
    by_cases h10 : n < 10
    · simp only [natDecChars, if_pos h10, List.mem_singleton] at hc
      subst hc
      rw [toNat_digitChar h10]
      omega
    · have hdiv : n / 10 < n := Nat.div_lt_self (by omega) (by omega)
      simp only [natDecChars, if_neg h10, List.mem_append, List.mem_singleton] at hc
      rcases hc with hc | hc
      · exact ih (n / 10) (by omega) c hc
      · subst hc
        rw [toNat_digitChar (Nat.mod_lt n (by omega))]
        omega

theorem natDecChars_not_mem {fuel n : Nat} (h : n < fuel) {c : Char}
    (hc : c.toNat < 48 ∨ 57 < c.toNat) : c ∉ natDecChars fuel n := by
  intro hm
  rcases natDecChars_digits fuel n h c hm with ⟨h1, h2⟩
  omega

theorem natDecChars_ne_nil : ∀ fuel n, n < fuel → natDecChars fuel n ≠ [] := by
  intro fuel
  induction fuel with
  | zero => intro n h; omega
  | succ fuel _ =>
    intro n _
    by_cases h10 : n < 10
    · simp [natDecChars, if_pos h10]
    · simp [natDecChars, if_neg h10]

/-! Separator-joined concatenation, mirroring the first-flag loops in
CalculateProgramCacheKey (first element bare, each later element preceded by
the separator). joinTail renders the tail of such a loop. -/

/-- Render the non-first elements of a separator loop: each preceded by sep. -/
def joinTailChars (sep : Char) : List (List Char) → List Char
  | [] => []
  | e :: es => sep :: (e ++ joinTailChars sep es)

/-- Render a full first-flag separator loop over character lists. -/
def joinChars (sep : Char) : List (List Char) → List Char
  | [] => []
  | e :: es => e ++ joinTailChars sep es

theorem joinTailChars_append (sep : Char) (as bs : List (List Char)) :
    joinTailChars sep (as ++ bs) = joinTailChars sep as ++ joinTailChars sep bs := by
  induction as with
  | nil => rfl
  | cons a as ih => simp [joinTailChars, ih]

/-- Splitting at the first occurrence of a character is unambiguous. -/
theorem append_cons_inj {c : Char} :
    ∀ {a1 a2 b1 b2 : List Char}, c ∉ a1 → c ∉ a2 →
      a1 ++ c :: b1 = a2 ++ c :: b2 → a1 = a2 ∧ b1 = b2 := by
  intro a1
  induction a1 with
  | nil =>
    intro a2 b1 b2 _ h2 h
    cases a2 with
    | nil => simpa using h
    | cons x xs =>
      simp only [List.nil_append, List.cons_append, List.cons.injEq] at h
      exact absurd (h.1 ▸ List.mem_cons_self x xs) h2
  | cons x xs ih =>
    intro a2 b1 b2 h1 h2 h
    cases a2 with
    | nil =>
      simp only [List.nil_append, List.cons_append, List.cons.injEq] at h
      exact absurd (h.1.symm ▸ List.mem_cons_self x xs) h1
    | cons y ys =>
      simp only [List.cons_append, List.cons.injEq] at h
      obtain ⟨hxy, hrest⟩ := h
      have := ih (fun hm => h1 (List.mem_cons_of_mem x hm))
        (fun hm => h2 (List.mem_cons_of_mem y hm)) hrest
      exact ⟨by rw [hxy, this.1], this.2⟩

theorem joinTailChars_ne_nil (sep : Char) (e : List Char) (es : List (List Char)) :
    joinTailChars sep (e :: es) ≠ [] := by
  simp [joinTailChars]

/-- A first-flag separator join determines its list of elements, provided no
element contains the separator — except that the empty list and the
singleton empty element both render as the empty string. -/
theorem joinChars_inj (sep : Char) :
    ∀ es1 es2 : List (List Char), (∀ e ∈ es1, sep ∉ e) → (∀ e ∈ es2, sep ∉ e) →
      joinChars sep es1 = joinChars sep es2 →
      es1 = es2 ∨ (es1 = [] ∧ es2 = [[]]) ∨ (es1 = [[]] ∧ es2 = []) := by
  intro es1
  induction es1 with
  | nil =>
    intro es2 _ _ h
    cases es2 with
    | nil => exact Or.inl rfl
    | cons e2 r2 =>
      simp only [joinChars] at h
      have h' := h.symm
      rcases List.append_eq_nil.mp h' with ⟨he, hj⟩
      cases r2 with
      | nil => exact Or.inr (Or.inl ⟨rfl, by rw [he]⟩)
      | cons x xs => exact absurd hj (joinTailChars_ne_nil sep x xs)
  | cons e1 r1 ih =>
    intro es2 hf1 hf2 h
    cases es2 with
    | nil =>
      simp only [joinChars] at h
      rcases List.append_eq_nil.mp h with ⟨he, hj⟩
      cases r1 with
      | nil => exact Or.inr (Or.inr ⟨by rw [he], rfl⟩)
      | cons x xs => exact absurd hj (joinTailChars_ne_nil sep x xs)
    | cons e2 r2 =>
      simp only [joinChars] at h
      cases r1 with
      | nil =>
        cases r2 with
        | nil =>
          simp only [joinTailChars, List.append_nil] at h
          exact Or.inl (by rw [h])
        | cons x xs =>
          simp only [joinTailChars, List.append_nil] at h
          have : sep ∈ e1 := by
            rw [h]
            exact List.mem_append_right e2 (List.mem_cons_self sep _)
          exact absurd this (hf1 e1 (List.mem_cons_self e1 []))
      | cons x1 xs1 =>
        cases r2 with
        | nil =>
          simp only [joinTailChars, List.append_nil] at h
          have : sep ∈ e2 := by
            rw [← h]
            exact List.mem_append_right e1 (List.mem_cons_self sep _)
          exact absurd this (hf2 e2 (List.mem_cons_self e2 []))
        | cons x2 xs2 =>
          simp only [joinTailChars] at h
          have hsplit := append_cons_inj (hf1 e1 (List.mem_cons_self e1 _))
            (hf2 e2 (List.mem_cons_self e2 _)) h
          obtain ⟨he, hrest⟩ := hsplit
          have hr : joinChars sep (x1 :: xs1) = joinChars sep (x2 :: xs2) := hrest
          have := ih (x2 :: xs2) (fun e he => hf1 e (List.mem_cons_of_mem e1 he))
            (fun e he => hf2 e (List.mem_cons_of_mem e2 he)) hr
          rcases this with heq | ⟨hc, _⟩ | ⟨_, hc⟩
          · exact Or.inl (by rw [he, heq])
          · exact absurd hc (by simp)
          · exact absurd hc (by simp)

/-! Data model: uniform values, dependency flags, tensors, descriptors
(program.h / program.cc). -/

/-- Data type of a uniform variable (enum ProgramUniformVariableDataType;
the first enumerator, Float32, is the zero value produced by the default
constructor). -/
inductive ProgramUniformVariableDataType
  | Float32
  | Float16
  | Uint32
  | Int32
  deriving DecidableEq

/-- ProgramUniformVariableDataTypeSize: sizeof(float), sizeof(uint16_t),
sizeof(uint32_t), sizeof(int32_t). -/
def ProgramUniformVariableDataTypeSize : ProgramUniformVariableDataType → Nat
  | .Float32 => 4
  | .Float16 => 2
  | .Uint32 => 4
  | .Int32 => 4

/-- ProgramUniformVariableDataTypeName: the WGSL scalar type names. -/
def ProgramUniformVariableDataTypeName : ProgramUniformVariableDataType → String
  | .Float32 => "f32"
  | .Float16 => "f16"
  | .Uint32 => "u32"
  | .Int32 => "i32"

/-- Runtime value of a uniform variable. The excerpt holds two revisions of
this record: the older one (program.h with ProgramUniformVariable) carries a
name and calls the element count num_elements; the newer one
(ProgramUniformVariableValue) calls it length. One record covers both; the
raw bytes are modelled as an opaque list. -/
structure ProgramUniformVariableValue where
  name : String
  length : Nat
  dataType : ProgramUniformVariableDataType
  data : List Nat
  deriving DecidableEq

/-- The default ProgramUniformVariableValue constructor: length 0 and
zero-valued data type, representing an empty uniform variable. -/
def emptyUniformValue : ProgramUniformVariableValue :=
  ⟨"", 0, .Float32, []⟩

/-- The private ProgramUniformVariableValue constructor taking (data_type,
ptr, element_byte_size, length): ORT_ENFORCE rejects length 0. -/
def mkUniformValue (dt : ProgramUniformVariableDataType) (bytes : List Nat)
    (length : Nat) : Except String ProgramUniformVariableValue :=
  if 0 < length then Except.ok ⟨"", length, dt, bytes⟩
  else Except.error "number of element of uniform variable must be greater than 0"

/-- The span-taking public constructors: element count is the span size. -/
def uniformValueOfSpan (dt : ProgramUniformVariableDataType) (values : List Nat) :
    Except String ProgramUniformVariableValue :=
  mkUniformValue dt values values.length

/-- The scalar public constructors: element count 1. -/
def uniformValueOfScalar (dt : ProgramUniformVariableDataType) (value : Nat) :
    Except String ProgramUniformVariableValue :=
  mkUniformValue dt [value] 1

/-- ProgramInputTensorDependency: bitset over Type, Rank and Shape,
modelled as three flags. TypeAndRank and TypeAndShape are the unions. -/
structure ProgramInputTensorDependency where
  typeDep : Bool
  rankDep : Bool
  shapeDep : Bool
  deriving DecidableEq

/-- Modelled from the spec: the Tensor collaborator (outside the excerpt)
exposes an element data type (the ONNX element-type enum value, printed as a
decimal integer by GetElementType), and a shape whose dimension count is the
rank. -/
structure TensorInfo where
  elementType : Nat
  shape : List Nat
  deriving DecidableEq

/-- ProgramInput: a tensor reference plus its dependency flags. -/
structure ProgramInput where
  tensor : TensorInfo
  dependency : ProgramInputTensorDependency
  deriving DecidableEq

/-- ProgramDescriptor / ProgramBase: the fields read by the subsystem. -/
structure ProgramDescriptor where
  name : String
  cacheHint : String
  inputs : List ProgramInput
  outputs : List TensorInfo
  dispatchX : Nat
  dispatchY : Nat
  dispatchZ : Nat
  uniforms : List ProgramUniformVariableValue
  deriving DecidableEq

/-! String-level separator join, mirroring the first-flag loops of
CalculateProgramCacheKey. -/

/-- Non-first elements of a first-flag separator loop, over strings. -/
def joinTailStr (sep : String) : List String → String
  | [] => ""
  | s :: rest => sep ++ s ++ joinTailStr sep rest

/-- A full first-flag separator loop over strings. -/
def joinSepStr (sep : String) : List String → String
  | [] => ""
  | s :: rest => s ++ joinTailStr sep rest

theorem data_joinTailStr {sep : String} {c : Char} (hs : sep.data = [c]) :
    ∀ ss : List String,
      (joinTailStr sep ss).data = joinTailChars c (ss.map String.data)
  | [] => rfl
  | s :: rest => by
    simp only [joinTailStr, joinTailChars, List.map_cons, String.data_append,
      data_joinTailStr hs rest, hs, List.cons_append, List.append_assoc,
      List.singleton_append, List.nil_append]

theorem data_joinSepStr {sep : String} {c : Char} (hs : sep.data = [c]) :
    ∀ ss : List String,
      (joinSepStr sep ss).data = joinChars c (ss.map String.data)
  | [] => rfl
  | s :: rest => by
    simp only [joinSepStr, joinChars, List.map_cons, String.data_append,
      data_joinTailStr hs rest]

/-! The cache key calculator, CalculateProgramCacheKey
(program_cache_key.cc). Key format:
NAME[CACHE_HINT]:IS_1D_DISPATCH:UNIFORM_LENGTHS:INPUTS_INFO. -/

/-- Modelled from the spec: TensorShape::ToString — the "full shape string"
of an input tensor (the TensorShape collaborator is outside the excerpt).
It renders the ordered dimension sizes, comma separated, in braces. -/
def tensorShapeToString (shape : List Nat) : String :=
  "\x7b" ++ joinSepStr "," (shape.map natDec) ++ "\x7d"

/-- The bracketed cache-hint fragment: empty hints are omitted entirely. -/
def cacheHintStr (hint : String) : String :=
  if hint = "" then "" else "[" ++ hint ++ "]"

/-- One uniform's contribution: its length, or nothing when the length is
zero (the empty uniform). -/
def uniformEntryStr (len : Nat) : String :=
  if 0 < len then natDec len else ""

/-- One input's contribution: the element type when the Type flag is set,
then a semicolon, then the rank when the Rank flag is set, otherwise the
full shape string when the Shape flag is set (the source tests Rank first). -/
def inputEntryStr (i : ProgramInput) : String :=
  (if i.dependency.typeDep then natDec i.tensor.elementType else "") ++ ";" ++
    (if i.dependency.rankDep then natDec i.tensor.shape.length
     else if i.dependency.shapeDep then tensorShapeToString i.tensor.shape else "")

/-- CalculateProgramCacheKey: the structural fingerprint of a program
descriptor plus the derived is-1-D-dispatch flag. -/
def calculateProgramCacheKey (p : ProgramDescriptor) (is1dDispatch : Bool) : String :=
  p.name ++ cacheHintStr p.cacheHint ++ ":" ++ (if is1dDispatch then "1" else "0") ++ ":" ++
    joinSepStr "|" (p.uniforms.map (fun u => uniformEntryStr u.length)) ++ ":" ++
    joinSepStr "|" (p.inputs.map inputEntryStr)

/-! String cancellation and injectivity facts about the key fragments. -/

theorem str_append_cancel_left {a b c : String} (h : a ++ b = a ++ c) : b = c := by
  have hd := congrArg String.data h
  simp only [String.data_append] at hd
  exact String.ext (List.append_cancel_left hd)

theorem str_append_cancel_right {a b c : String} (h : a ++ c = b ++ c) : a = b := by
  have hd := congrArg String.data h
  simp only [String.data_append] at hd
  exact String.ext (List.append_cancel_right hd)

theorem natDec_ne_empty (n : Nat) : natDec n ≠ "" := by
  intro h
  exact natDecChars_ne_nil (n + 1) n (Nat.lt_succ_self n) (congrArg String.data h)

theorem uniformEntryStr_inj {m n : Nat} (h : uniformEntryStr m = uniformEntryStr n) :
    m = n := by
  unfold uniformEntryStr at h
  by_cases hm : 0 < m
  · by_cases hn : 0 < n
    · rw [if_pos hm, if_pos hn] at h
      exact natDec_inj h
    · rw [if_pos hm, if_neg hn] at h
      exact absurd h (natDec_ne_empty m)
  · by_cases hn : 0 < n
    · rw [if_neg hm, if_pos hn] at h
      exact absurd h.symm (natDec_ne_empty n)
    · omega

theorem map_data_natDec_inj {s1 s2 : List Nat}
    (h : (s1.map natDec).map String.data = (s2.map natDec).map String.data) :
    s1 = s2 := by
  rw [List.map_map, List.map_map] at h
  exact List.map_injective_iff.mpr (fun a b hab => natDec_inj (String.ext hab)) h

theorem not_mem_natDec_data {c : Char} (hc : c.toNat < 48 ∨ 57 < c.toNat) (d : Nat) :
    c ∉ (natDec d).data :=
  natDecChars_not_mem (Nat.lt_succ_self d) hc

theorem map_data_natDec_ne_singleton_nil (s : List Nat) :
    (s.map natDec).map String.data ≠ [[]] := by
  intro h
  cases s with
  | nil => simp at h
  | cons d rest =>
    cases rest with
    | nil =>
      simp only [List.map_cons, List.map_nil, List.cons.injEq, and_true] at h
      exact natDecChars_ne_nil (d + 1) d (Nat.lt_succ_self d) h
    | cons d2 rest2 => simp at h

theorem tensorShapeToString_inj {s1 s2 : List Nat}
    (h : tensorShapeToString s1 = tensorShapeToString s2) : s1 = s2 := by
  have hd := congrArg String.data h
  simp only [tensorShapeToString, String.data_append] at hd
  have hmid : (joinSepStr "," (s1.map natDec)).data =
      (joinSepStr "," (s2.map natDec)).data :=
    List.append_cancel_left (List.append_cancel_right hd)
  rw [data_joinSepStr rfl, data_joinSepStr rfl] at hmid
  have hfree : ∀ s : List Nat, ∀ e ∈ (s.map natDec).map String.data, ',' ∉ e := by
    intro s e he
    rw [List.map_map] at he
    obtain ⟨d, _, rfl⟩ := List.mem_map.mp he
    exact not_mem_natDec_data (Or.inl (by decide)) d
  rcases joinChars_inj ',' _ _ (hfree s1) (hfree s2) hmid with heq | ⟨_, h2⟩ | ⟨h1, _⟩
  · exact map_data_natDec_inj heq
  · exact absurd h2 (map_data_natDec_ne_singleton_nil s2)
  · exact absurd h1 (map_data_natDec_ne_singleton_nil s1)

/-- Two inputs whose dependency flags coincide and whose selected facts
coincide render identical cache-key entries. -/
theorem inputEntryStr_congr {i j : ProgramInput}
    (hdep : i.dependency = j.dependency)
    (htype : i.dependency.typeDep = true → i.tensor.elementType = j.tensor.elementType)
    (hrank : i.dependency.rankDep = true → i.tensor.shape.length = j.tensor.shape.length)
    (hshape : i.dependency.rankDep = false → i.dependency.shapeDep = true →
      i.tensor.shape = j.tensor.shape) :
    inputEntryStr i = inputEntryStr j := by
  unfold inputEntryStr
  rw [← hdep]
  have h1 : (if i.dependency.typeDep = true then natDec i.tensor.elementType else "") =
      (if i.dependency.typeDep = true then natDec j.tensor.elementType else "") := by
    by_cases ht : i.dependency.typeDep = true
    · rw [if_pos ht, if_pos ht, htype ht]
    · rw [if_neg ht, if_neg ht]
  have h2 : (if i.dependency.rankDep = true then natDec i.tensor.shape.length
      else if i.dependency.shapeDep = true then tensorShapeToString i.tensor.shape
      else "") =
      (if i.dependency.rankDep = true then natDec j.tensor.shape.length
      else if i.dependency.shapeDep = true then tensorShapeToString j.tensor.shape
      else "") := by
    by_cases hr : i.dependency.rankDep = true
    · rw [if_pos hr, if_pos hr, hrank hr]
    · rw [if_neg hr, if_neg hr]
      by_cases hs : i.dependency.shapeDep = true
      · rw [if_pos hs, if_pos hs, hshape (by simpa using hr) hs]
      · rw [if_neg hs, if_neg hs]
  rw [h1, h2]

/-- Pointwise agreement of selected input facts yields identical input
entry lists. -/
theorem mapInputEntry_congr : ∀ {l1 l2 : List ProgramInput},
    List.Forall₂ (fun i j =>
      i.dependency = j.dependency ∧
      (i.dependency.typeDep = true → i.tensor.elementType = j.tensor.elementType) ∧
      (i.dependency.rankDep = true → i.tensor.shape.length = j.tensor.shape.length) ∧
      (i.dependency.rankDep = false → i.dependency.shapeDep = true →
        i.tensor.shape = j.tensor.shape)) l1 l2 →
    l1.map inputEntryStr = l2.map inputEntryStr := by
  intro l1 l2 h
  induction h with
  | nil => rfl
  | cons hrel _ ih =>
    obtain ⟨hdep, htype, hrank, hshape⟩ := hrel
    simp only [List.map_cons, ih, List.cons.injEq, and_true]
    exact inputEntryStr_congr hdep htype hrank hshape

/-- Claim C1: two ProgramDescriptors agreeing on the name, the cache hint,
the dispatch-dimensionality flag, the ordered uniform element counts, and,
input by input, on the dependency flags and the facts those flags select
(element type when Type is set; rank when Rank is set; full shape when Shape
is set and Rank is not), receive identical cache keys from
CalculateProgramCacheKey: the key depends on no other part of the
descriptor. -/
theorem cacheKey_two_run_determinism (p q : ProgramDescriptor) (b : Bool)
    (hname : p.name = q.name) (hhint : p.cacheHint = q.cacheHint)
    (hulen : p.uniforms.map (fun u => u.length) = q.uniforms.map (fun u => u.length))
    (hinp : List.Forall₂ (fun i j =>
        i.dependency = j.dependency ∧
        (i.dependency.typeDep = true → i.tensor.elementType = j.tensor.elementType) ∧
        (i.dependency.rankDep = true → i.tensor.shape.length = j.tensor.shape.length) ∧
        (i.dependency.rankDep = false → i.dependency.shapeDep = true →
          i.tensor.shape = j.tensor.shape)) p.inputs q.inputs) :
    calculateProgramCacheKey p b = calculateProgramCacheKey q b := by
  have hmm : ∀ r : List ProgramUniformVariableValue,
      r.map (fun u => uniformEntryStr u.length) =
        (r.map (fun u => u.length)).map uniformEntryStr := by
    intro r
    rw [List.map_map]
    rfl
  have hu : p.uniforms.map (fun u => uniformEntryStr u.length) =
      q.uniforms.map (fun u => uniformEntryStr u.length) := by
    rw [hmm, hmm, hulen]
  have hi : p.inputs.map inputEntryStr = q.inputs.map inputEntryStr :=
    mapInputEntry_congr hinp
  unfold calculateProgramCacheKey
  rw [hname, hhint, hu, hi]

/-- Witness for C1 at two concrete descriptors that differ in outputs,
dispatch size, uniform payload bytes and an unselected shape fact, yet agree
on every key-contributing fact. -/
theorem cacheKey_two_run_determinism_witness :
    calculateProgramCacheKey
        ⟨"op", "h", [⟨⟨1, [2, 3]⟩, ⟨true, true, false⟩⟩], [⟨1, [6]⟩], 7, 1, 1,
          [⟨"x", 2, .Float32, [1, 2]⟩]⟩ true =
      calculateProgramCacheKey
        ⟨"op", "h", [⟨⟨1, [3, 2]⟩, ⟨true, true, false⟩⟩], [], 9, 9, 9,
          [⟨"y", 2, .Uint32, [3]⟩]⟩ true :=
  cacheKey_two_run_determinism _ _ true rfl rfl rfl
    (List.Forall₂.cons
      ⟨rfl, fun _ => rfl, fun _ => rfl, fun hr _ => Bool.noConfusion hr⟩
      List.Forall₂.nil)

/-! Sensitivity of the cache key to each contributing field. -/

theorem map_uniformEntry_eq (r : List ProgramUniformVariableValue) :
    r.map (fun u => uniformEntryStr u.length) =
      (r.map (fun u => u.length)).map uniformEntryStr := by
  rw [List.map_map]
  rfl

theorem cacheHintStr_inj {a b : String} (h : cacheHintStr a = cacheHintStr b) :
    a = b := by
  unfold cacheHintStr at h
  by_cases ha : a = ""
  · by_cases hb : b = ""
    · rw [ha, hb]
    · rw [if_pos ha, if_neg hb] at h
      have hd := congrArg String.data h
      simp only [String.data_append] at hd
      exact absurd hd.symm (by simp)
  · by_cases hb : b = ""
    · rw [if_neg ha, if_pos hb] at h
      have hd := congrArg String.data h
      simp only [String.data_append] at hd
      exact absurd hd (by simp)
    · rw [if_neg ha, if_neg hb] at h
      have h1 := str_append_cancel_right h
      exact str_append_cancel_left h1

theorem map_data_uniformEntry_eq_nil {ls : List Nat}
    (h : (ls.map uniformEntryStr).map String.data = []) : ls = [] := by
  cases ls with
  | nil => rfl
  | cons n rest => simp at h

theorem map_data_uniformEntry_eq_singleton_nil {ls : List Nat}
    (h : (ls.map uniformEntryStr).map String.data = [[]]) : ls = [0] := by
  cases ls with
  | nil => simp at h
  | cons n rest =>
    cases rest with
    | nil =>
      simp only [List.map_cons, List.map_nil, List.cons.injEq, and_true] at h
      by_cases hn : 0 < n
      · rw [show uniformEntryStr n = natDec n from if_pos hn] at h
        exact absurd h (natDecChars_ne_nil (n + 1) n (Nat.lt_succ_self n))
      · have : n = 0 := by omega
        rw [this]
    | cons n2 rest2 => simp at h

/-- The rendered uniform-length field determines the ordered length list,
except that no uniforms at all and a single zero-length uniform both render
as the empty field. -/
theorem uniformsStr_inj {ls1 ls2 : List Nat}
    (h : joinSepStr "|" (ls1.map uniformEntryStr) =
      joinSepStr "|" (ls2.map uniformEntryStr)) :
    ls1 = ls2 ∨ (ls1 = [] ∧ ls2 = [0]) ∨ (ls1 = [0] ∧ ls2 = []) := by
  have hd := congrArg String.data h
  rw [data_joinSepStr rfl, data_joinSepStr rfl] at hd
  have hfree : ∀ ls : List Nat, ∀ e ∈ (ls.map uniformEntryStr).map String.data,
      '|' ∉ e := by
    intro ls e he
    rw [List.map_map] at he
    obtain ⟨n, _, rfl⟩ := List.mem_map.mp he
    by_cases hn : 0 < n
    · simpa [Function.comp, uniformEntryStr, hn] using
        not_mem_natDec_data (Or.inr (by decide)) n
    · simp [Function.comp, uniformEntryStr, hn]
  rcases joinChars_inj '|' _ _ (hfree ls1) (hfree ls2) hd with heq | ⟨ha, hb⟩ | ⟨ha, hb⟩
  · left
    rw [List.map_map, List.map_map] at heq
    exact List.map_injective_iff.mpr
      (fun a b hab => uniformEntryStr_inj (String.ext hab)) heq
  · exact Or.inr (Or.inl ⟨map_data_uniformEntry_eq_nil ha,
      map_data_uniformEntry_eq_singleton_nil hb⟩)
  · exact Or.inr (Or.inr ⟨map_data_uniformEntry_eq_singleton_nil ha,
      map_data_uniformEntry_eq_nil hb⟩)

/-- Changing one selected fact of an input, holding its flags and the other
selected facts fixed, changes its cache-key entry. -/
theorem inputEntryStr_ne {i j : ProgramInput} (hdep : i.dependency = j.dependency)
    (hch : (i.dependency.typeDep = true ∧ i.tensor.elementType ≠ j.tensor.elementType ∧
        (i.dependency.rankDep = true → i.tensor.shape.length = j.tensor.shape.length) ∧
        (i.dependency.rankDep = false → i.dependency.shapeDep = true →
          i.tensor.shape = j.tensor.shape))
      ∨ (i.dependency.rankDep = true ∧ i.tensor.shape.length ≠ j.tensor.shape.length ∧
        (i.dependency.typeDep = true → i.tensor.elementType = j.tensor.elementType))
      ∨ (i.dependency.rankDep = false ∧ i.dependency.shapeDep = true ∧
        i.tensor.shape ≠ j.tensor.shape ∧
        (i.dependency.typeDep = true → i.tensor.elementType = j.tensor.elementType))) :
    inputEntryStr i ≠ inputEntryStr j := by
  intro h
  unfold inputEntryStr at h
  rw [← hdep] at h
  rcases hch with ⟨ht, hne, hrank, hshape⟩ | ⟨hr, hne, htype⟩ | ⟨hr, hs, hne, htype⟩
  · have hB : (if i.dependency.rankDep = true then natDec i.tensor.shape.length
        else if i.dependency.shapeDep = true then tensorShapeToString i.tensor.shape
        else "") =
        (if i.dependency.rankDep = true then natDec j.tensor.shape.length
        else if i.dependency.shapeDep = true then tensorShapeToString j.tensor.shape
        else "") := by
      by_cases hr : i.dependency.rankDep = true
      · rw [if_pos hr, if_pos hr, hrank hr]
      · rw [if_neg hr, if_neg hr]
        by_cases hs : i.dependency.shapeDep = true
        · rw [if_pos hs, if_pos hs, hshape (by simpa using hr) hs]
        · rw [if_neg hs, if_neg hs]
    rw [← hB, if_pos ht, if_pos ht] at h
    exact hne (natDec_inj (str_append_cancel_right (str_append_cancel_right h)))
  · have hA : (if i.dependency.typeDep = true then natDec i.tensor.elementType else "") =
        (if i.dependency.typeDep = true then natDec j.tensor.elementType else "") := by
      by_cases ht : i.dependency.typeDep = true
      · rw [if_pos ht, if_pos ht, htype ht]
      · rw [if_neg ht, if_neg ht]
    rw [← hA, if_pos hr, if_pos hr] at h
    exact hne (natDec_inj (str_append_cancel_left h))
  · have hA : (if i.dependency.typeDep = true then natDec i.tensor.elementType else "") =
        (if i.dependency.typeDep = true then natDec j.tensor.elementType else "") := by
      by_cases ht : i.dependency.typeDep = true
      · rw [if_pos ht, if_pos ht, htype ht]
      · rw [if_neg ht, if_neg ht]
    have hr' : ¬i.dependency.rankDep = true := by simp [hr]
    rw [← hA, if_neg hr', if_neg hr', if_pos hs, if_pos hs] at h
    exact hne (tensorShapeToString_inj (str_append_cancel_left h))

/-- Replacing one element of a separator-joined list by a different string
changes the join. -/
theorem joinSepStr_update_ne {e1 e2 : String} (hne : e1 ≠ e2)
    (pre post : List String) :
    joinSepStr "|" (pre ++ e1 :: post) ≠ joinSepStr "|" (pre ++ e2 :: post) := by
  intro h
  apply hne
  apply String.ext
  have hd := congrArg String.data h
  rw [data_joinSepStr rfl, data_joinSepStr rfl, List.map_append, List.map_append,
    List.map_cons, List.map_cons] at hd
  cases hp : pre.map String.data with
  | nil =>
    rw [hp] at hd
    simp only [List.nil_append, joinChars] at hd
    exact List.append_cancel_right hd
  | cons a as =>
    rw [hp] at hd
    simp only [List.cons_append, joinChars, joinTailChars_append, joinTailChars] at hd
    have h1 := List.append_cancel_left hd
    have h2 := List.append_cancel_left h1
    have h3 : e1.data ++ joinTailChars '|' (post.map String.data) =
        e2.data ++ joinTailChars '|' (post.map String.data) := by
      have := List.cons.injEq '|' (e1.data ++ joinTailChars '|' (post.map String.data))
        '|' (e2.data ++ joinTailChars '|' (post.map String.data))
      rw [this] at h2
      exact h2.2
    exact List.append_cancel_right h3

/-- Claim C2 (amended): changing exactly one key-contributing field of a
ProgramDescriptor — the name, the cache hint, the 1-D dispatch flag, the
ordered uniform element-count list, or one input's selected (type,
rank-or-shape) fact — while holding everything else fixed changes the
CalculateProgramCacheKey string, with one exception forced by the code: a
descriptor with no uniforms and one whose only uniform is the zero-length
empty uniform render the same (empty) uniform field and therefore collide. -/
theorem cacheKey_field_sensitivity :
    (∀ p : ProgramDescriptor, ∀ b : Bool, ∀ n2 : String, p.name ≠ n2 →
      calculateProgramCacheKey {p with name := n2} b ≠ calculateProgramCacheKey p b)
    ∧ (∀ p : ProgramDescriptor, ∀ b : Bool, ∀ h2 : String, p.cacheHint ≠ h2 →
      calculateProgramCacheKey {p with cacheHint := h2} b ≠
        calculateProgramCacheKey p b)
    ∧ (∀ p : ProgramDescriptor, ∀ b1 b2 : Bool, b1 ≠ b2 →
      calculateProgramCacheKey p b1 ≠ calculateProgramCacheKey p b2)
    ∧ (∀ p : ProgramDescriptor, ∀ b : Bool,
        ∀ us2 : List ProgramUniformVariableValue,
      p.uniforms.map (fun u => u.length) ≠ us2.map (fun u => u.length) →
      ¬(p.uniforms.map (fun u => u.length) = [] ∧ us2.map (fun u => u.length) = [0]) →
      ¬(p.uniforms.map (fun u => u.length) = [0] ∧ us2.map (fun u => u.length) = []) →
      calculateProgramCacheKey {p with uniforms := us2} b ≠
        calculateProgramCacheKey p b)
    ∧ (∀ p : ProgramDescriptor, ∀ b : Bool, ∀ pre post : List ProgramInput,
        ∀ i1 i2 : ProgramInput,
      p.inputs = pre ++ i1 :: post →
      i1.dependency = i2.dependency →
      ((i1.dependency.typeDep = true ∧ i1.tensor.elementType ≠ i2.tensor.elementType ∧
          (i1.dependency.rankDep = true →
            i1.tensor.shape.length = i2.tensor.shape.length) ∧
          (i1.dependency.rankDep = false → i1.dependency.shapeDep = true →
            i1.tensor.shape = i2.tensor.shape))
        ∨ (i1.dependency.rankDep = true ∧
          i1.tensor.shape.length ≠ i2.tensor.shape.length ∧
          (i1.dependency.typeDep = true →
            i1.tensor.elementType = i2.tensor.elementType))
        ∨ (i1.dependency.rankDep = false ∧ i1.dependency.shapeDep = true ∧
          i1.tensor.shape ≠ i2.tensor.shape ∧
          (i1.dependency.typeDep = true →
            i1.tensor.elementType = i2.tensor.elementType))) →
      calculateProgramCacheKey {p with inputs := pre ++ i2 :: post} b ≠
        calculateProgramCacheKey p b) := by
  refine ⟨?_, ?_, ?_, ?_, ?_⟩
  · intro p b n2 hne h
    unfold calculateProgramCacheKey at h
    simp only [String.append_assoc] at h
    exact hne (str_append_cancel_right h).symm
  · intro p b h2 hne h
    unfold calculateProgramCacheKey at h
    simp only [String.append_assoc] at h
    have h1 := str_append_cancel_left h
    exact hne (cacheHintStr_inj (str_append_cancel_right h1)).symm
  · intro p b1 b2 hne h
    unfold calculateProgramCacheKey at h
    simp only [String.append_assoc] at h
    have h1 := str_append_cancel_left (str_append_cancel_left
      (str_append_cancel_left h))
    have h2 := str_append_cancel_right h1
    cases b1 <;> cases b2
    · exact hne rfl
    · exact absurd h2 (by decide)
    · exact absurd h2 (by decide)
    · exact hne rfl
  · intro p b us2 hne hx1 hx2 h
    unfold calculateProgramCacheKey at h
    simp only [String.append_assoc] at h
    have h1 := str_append_cancel_left (str_append_cancel_left (str_append_cancel_left
      (str_append_cancel_left (str_append_cancel_left h))))
    have hu := str_append_cancel_right h1
    rw [map_uniformEntry_eq, map_uniformEntry_eq] at hu
    rcases uniformsStr_inj hu with heq | ⟨ha, hb⟩ | ⟨ha, hb⟩
    · exact hne heq.symm
    · exact hx2 ⟨hb, ha⟩
    · exact hx1 ⟨hb, ha⟩
  · intro p b pre post i1 i2 hpi hdep hch h
    unfold calculateProgramCacheKey at h
    simp only [String.append_assoc] at h
    have h1 := str_append_cancel_left (str_append_cancel_left (str_append_cancel_left
      (str_append_cancel_left (str_append_cancel_left (str_append_cancel_left
        (str_append_cancel_left h))))))
    rw [hpi, List.map_append, List.map_append, List.map_cons, List.map_cons] at h1
    exact joinSepStr_update_ne (inputEntryStr_ne hdep hch)
      (pre.map inputEntryStr) (post.map inputEntryStr) h1.symm

/-- Counterexample to C2 as literally stated: replacing an empty uniform
list by the single zero-length empty uniform changes the uniform
element-count list but leaves the cache key unchanged. -/
theorem cacheKey_empty_uniform_collision :
    ([emptyUniformValue].map (fun u => u.length) ≠
        ([] : List ProgramUniformVariableValue).map (fun u => u.length))
    ∧ calculateProgramCacheKey ⟨"a", "", [], [], 1, 1, 1, [emptyUniformValue]⟩ true =
      calculateProgramCacheKey ⟨"a", "", [], [], 1, 1, 1, []⟩ true := by
  constructor
  · decide
  · decide

/-- Witness for C2 at concrete descriptors: each clause applied at an
explicit single-field change. -/
theorem cacheKey_field_sensitivity_witness :
    (calculateProgramCacheKey ⟨"b", "", [], [], 1, 1, 1, []⟩ true ≠
      calculateProgramCacheKey ⟨"a", "", [], [], 1, 1, 1, []⟩ true)
    ∧ (calculateProgramCacheKey ⟨"a", "x", [], [], 1, 1, 1, []⟩ true ≠
      calculateProgramCacheKey ⟨"a", "", [], [], 1, 1, 1, []⟩ true)
    ∧ (calculateProgramCacheKey ⟨"a", "", [], [], 1, 1, 1, []⟩ true ≠
      calculateProgramCacheKey ⟨"a", "", [], [], 1, 1, 1, []⟩ false)
    ∧ (calculateProgramCacheKey ⟨"a", "", [], [], 1, 1, 1,
        [⟨"u", 3, .Float32, []⟩]⟩ true ≠
      calculateProgramCacheKey ⟨"a", "", [], [], 1, 1, 1,
        [⟨"u", 2, .Float32, []⟩]⟩ true)
    ∧ (calculateProgramCacheKey ⟨"a", "", [⟨⟨2, [4]⟩, ⟨true, false, false⟩⟩], [],
        1, 1, 1, []⟩ true ≠
      calculateProgramCacheKey ⟨"a", "", [⟨⟨1, [4]⟩, ⟨true, false, false⟩⟩], [],
        1, 1, 1, []⟩ true) := by
  refine ⟨?_, ?_, ?_, ?_, ?_⟩
  · exact cacheKey_field_sensitivity.1 ⟨"a", "", [], [], 1, 1, 1, []⟩ true "b"
      (by decide)
  · exact cacheKey_field_sensitivity.2.1 ⟨"a", "", [], [], 1, 1, 1, []⟩ true "x"
      (by decide)
  · exact cacheKey_field_sensitivity.2.2.1 ⟨"a", "", [], [], 1, 1, 1, []⟩ true false
      (by decide)
  · exact cacheKey_field_sensitivity.2.2.2.1 ⟨"a", "", [], [], 1, 1, 1,
      [⟨"u", 2, .Float32, []⟩]⟩ true [⟨"u", 3, .Float32, []⟩]
      (by decide) (by decide) (by decide)
  · exact cacheKey_field_sensitivity.2.2.2.2 ⟨"a", "", [⟨⟨1, [4]⟩,
      ⟨true, false, false⟩⟩], [], 1, 1, 1, []⟩ true [] []
      ⟨⟨1, [4]⟩, ⟨true, false, false⟩⟩ ⟨⟨2, [4]⟩, ⟨true, false, false⟩⟩ rfl rfl
      (Or.inl ⟨rfl, by decide, fun hq => Bool.noConfusion hq,
        fun _ hq => Bool.noConfusion hq⟩)

/-- Claim C3 (amended): in CalculateProgramCacheKey the Rank flag takes
precedence over Shape: whenever Rank is set the input's entry records the
rank — even when Shape is also set — and the full shape string is recorded
only when Rank is not set and Shape is set. -/
theorem inputEntry_rank_precedence (i : ProgramInput) :
    (i.dependency.rankDep = true →
      inputEntryStr i =
        (if i.dependency.typeDep then natDec i.tensor.elementType else "") ++ ";" ++
          natDec i.tensor.shape.length)
    ∧ (i.dependency.rankDep = false → i.dependency.shapeDep = true →
      inputEntryStr i =
        (if i.dependency.typeDep then natDec i.tensor.elementType else "") ++ ";" ++
          tensorShapeToString i.tensor.shape) := by
  constructor
  · intro hr
    unfold inputEntryStr
    rw [if_pos hr]
  · intro hr hs
    have hr' : ¬i.dependency.rankDep = true := by simp [hr]
    unfold inputEntryStr
    rw [if_neg hr', if_pos hs]

/-- Counterexample to C3 as stated: an input with both Rank and Shape set
and shape [2, 3] contributes its rank ";2" to the key, not its full shape
string. -/
theorem inputEntry_rank_precedence_counterexample :
    inputEntryStr ⟨⟨1, [2, 3]⟩, ⟨false, true, true⟩⟩ = ";2"
    ∧ inputEntryStr ⟨⟨1, [2, 3]⟩, ⟨false, true, true⟩⟩ ≠
      ";" ++ tensorShapeToString [2, 3] := by
  constructor
  · decide
  · decide

/-- Witness for C3 at a concrete input carrying both flags. -/
theorem inputEntry_rank_precedence_witness :
    inputEntryStr ⟨⟨7, [5, 6]⟩, ⟨true, true, true⟩⟩ =
      (if true then natDec 7 else "") ++ ";" ++ natDec 2 :=
  (inputEntry_rank_precedence ⟨⟨7, [5, 6]⟩, ⟨true, true, true⟩⟩).1 rfl

/-! Uniform buffer layout: the ProgramArtifact constructor loop
(program_manager.cc, also the unnamed duplicate revision). size_t cursor
arithmetic is modelled on Nat. -/

/-- A computed layout entry: {data type, byte offset, element count}. -/
structure ProgramUniformInfo where
  dataType : ProgramUniformVariableDataType
  offset : Nat
  length : Nat
  deriving DecidableEq

/-- Round the byte cursor up to the next multiple of the alignment:
(offset + alignment - 1) / alignment * alignment. -/
def roundUpTo (offset alignment : Nat) : Nat :=
  (offset + alignment - 1) / alignment * alignment

/-- base_alignment of one uniform, following the coded WGSL alignment
rules: half precision scales with the element size below five elements;
other types align to length × size up to two elements and to 16 above. -/
def baseAlignment (dt : ProgramUniformVariableDataType) (length : Nat) : Nat :=
  if dt = .Float16 then
    (if 4 < length then 16
     else if 2 < length then 8
     else length * ProgramUniformVariableDataTypeSize dt)
  else
    (if 2 < length then 16 else length * ProgramUniformVariableDataTypeSize dt)

/-- struct_size from the constructor: length × element size for small
half-precision values, 16 otherwise. -/
def structSize (dt : ProgramUniformVariableDataType) (length : Nat) : Nat :=
  if dt = .Float16 ∧ length ≤ 4 then length * ProgramUniformVariableDataTypeSize dt
  else 16

/-- Cursor advance after placing one value: past four elements the value
becomes an array of 16-byte groups of 4 scalars (8 packed half-precision
scalars), otherwise length × element size. -/
def advanceSize (dt : ProgramUniformVariableDataType) (length : Nat) : Nat :=
  if 4 < length then
    (length + (if dt = .Float16 then 8 else 4) - 1) /
        (if dt = .Float16 then 8 else 4) * structSize dt length
  else length * ProgramUniformVariableDataTypeSize dt

/-- The constructor loop: place each uniform in declaration order and
return the entries plus the final cursor. -/
def layoutUniforms (offset : Nat) :
    List ProgramUniformVariableValue → List ProgramUniformInfo × Nat
  | [] => ([], offset)
  | u :: rest =>
    let off2 := roundUpTo offset (baseAlignment u.dataType u.length)
    let tail := layoutUniforms (off2 + advanceSize u.dataType u.length) rest
    (⟨u.dataType, off2, u.length⟩ :: tail.1, tail.2)

/-- The layout part of ProgramArtifact construction: the placed entries and
the total uniform buffer size, the final cursor rounded up to a multiple of
16. -/
def programArtifactLayout (us : List ProgramUniformVariableValue) :
    List ProgramUniformInfo × Nat :=
  ((layoutUniforms 0 us).1, roundUpTo (layoutUniforms 0 us).2 16)

/-- Claim C4 (amended): for an ordinary (non-half-precision) uniform of
element count exactly 2 the layout loop uses alignment 2 × element size = 8,
not 16: the running cursor is rounded up to the next multiple of 8 before
the offset is recorded, and the consumed size is 8 bytes. -/
theorem layout_count2_alignment (off : Nat) (u : ProgramUniformVariableValue)
    (rest : List ProgramUniformVariableValue)
    (hlen : u.length = 2) (hdt : u.dataType ≠ .Float16) :
    baseAlignment u.dataType u.length = 8
    ∧ advanceSize u.dataType u.length = 8
    ∧ (layoutUniforms off (u :: rest)).1.head? =
      some ⟨u.dataType, roundUpTo off 8, 2⟩ := by
  have hba : baseAlignment u.dataType u.length = 8 := by
    unfold baseAlignment
    rw [if_neg hdt, hlen, if_neg (by omega)]
    cases hc : u.dataType
    · rfl
    · exact absurd hc hdt
    · rfl
    · rfl
  have hadv : advanceSize u.dataType u.length = 8 := by
    unfold advanceSize
    rw [hlen, if_neg (by omega)]
    cases hc : u.dataType
    · rfl
    · exact absurd hc hdt
    · rfl
    · rfl
  refine ⟨hba, hadv, ?_⟩
  have hh : (layoutUniforms off (u :: rest)).1.head? =
      some ⟨u.dataType, roundUpTo off (baseAlignment u.dataType u.length), u.length⟩ := rfl
  rw [hh, hba, hlen]

/-- Counterexample to C4 as stated: after a one-element float32 uniform the
cursor sits at 4; a two-element float32 uniform is then placed at offset 8
(alignment 8), not at the next multiple of 16. -/
theorem layout_count2_alignment_counterexample :
    (programArtifactLayout [⟨"a", 1, .Float32, []⟩, ⟨"b", 2, .Float32, []⟩]).1 =
      [⟨.Float32, 0, 1⟩, ⟨.Float32, 8, 2⟩]
    ∧ (8 : Nat) ≠ 16 := by
  constructor
  · decide
  · decide

/-- Witness for C4 at a concrete cursor and uniform. -/
theorem layout_count2_alignment_witness :
    baseAlignment ProgramUniformVariableDataType.Uint32 2 = 8
    ∧ advanceSize ProgramUniformVariableDataType.Uint32 2 = 8
    ∧ (layoutUniforms 4 [⟨"b", 2, .Uint32, []⟩]).1.head? =
      some ⟨.Uint32, roundUpTo 4 8, 2⟩ :=
  layout_count2_alignment 4 ⟨"b", 2, .Uint32, []⟩ [] rfl (by decide)

/-- Claim C10: whenever every uniform value has element count at least 1,
the base_alignment computed for each entry of the layout loop is nonzero, so
the cursor-rounding division is well-defined; element count 0 is reachable
only through the default-constructed empty uniform value, because the
private constructor behind every other uniform-value constructor rejects a
count of 0. -/
theorem layout_alignment_nonzero :
    (∀ us : List ProgramUniformVariableValue, (∀ u ∈ us, 1 ≤ u.length) →
      ∀ u ∈ us, 0 < baseAlignment u.dataType u.length)
    ∧ emptyUniformValue.length = 0
    ∧ (∀ dt bytes, mkUniformValue dt bytes 0 =
      Except.error "number of element of uniform variable must be greater than 0")
    ∧ (∀ dt bytes len v, mkUniformValue dt bytes len = Except.ok v → 0 < v.length)
    ∧ (∀ dt, uniformValueOfSpan dt [] =
      Except.error "number of element of uniform variable must be greater than 0")
    ∧ (∀ dt value v, uniformValueOfScalar dt value = Except.ok v → v.length = 1) := by
  refine ⟨?_, rfl, ?_, ?_, ?_, ?_⟩
  · intro us hall u hu
    have hlen := hall u hu
    unfold baseAlignment
    cases u.dataType <;> simp only [ProgramUniformVariableDataTypeSize] <;>
      split_ifs <;> omega
  · intro dt bytes
    rfl
  · intro dt bytes len v h
    unfold mkUniformValue at h
    by_cases h0 : 0 < len
    · rw [if_pos h0] at h
      cases h
      exact h0
    · rw [if_neg h0] at h
      cases h
  · intro dt
    rfl
  · intro dt value v h
    unfold uniformValueOfScalar mkUniformValue at h
    rw [if_pos (by omega)] at h
    cases h
    rfl

/-- Witness for C10 at a concrete uniform list and concrete constructor
calls. -/
theorem layout_alignment_nonzero_witness :
    (0 < baseAlignment ProgramUniformVariableDataType.Float16 1)
    ∧ (mkUniformValue .Uint32 [] 0 =
      Except.error "number of element of uniform variable must be greater than 0")
    ∧ (∀ v, mkUniformValue .Int32 [5] 1 = Except.ok v → 0 < v.length) := by
  refine ⟨?_, ?_, ?_⟩
  · exact layout_alignment_nonzero.1 [⟨"u", 1, .Float16, []⟩]
      (by intro u hu; cases hu with
        | head => exact le_refl 1
        | tail _ hm => cases hm)
      ⟨"u", 1, .Float16, []⟩ (List.mem_singleton.mpr rfl)
  · exact layout_alignment_nonzero.2.2.1 .Uint32 []
  · exact fun v => layout_alignment_nonzero.2.2.2.1 .Int32 [5] 1 v

/-! The program cache: ProgramManager::Get and ProgramManager::Set over the
programs_ map (std::unordered_map, modelled as a key-unique association
list; emplace inserts only when the key is absent and yields the mapped
artifact). -/

/-- ProgramArtifact: name, compiled pipeline handle (opaque id), computed
uniform layout and total uniform buffer size. -/
structure ProgramArtifact where
  name : String
  pipelineId : Nat
  uniforms : List ProgramUniformInfo
  uniformTotalSize : Nat
  deriving DecidableEq

/-- ProgramManager::Get: find(key), nullptr on a miss. -/
def pmGet (programs : List (String × ProgramArtifact)) (key : String) :
    Option ProgramArtifact :=
  match programs with
  | [] => none
  | (k, a) :: rest => if k = key then some a else pmGet rest key

/-- ProgramManager::Set: programs_.emplace(key, artifact).first->second —
inserts only when the key is absent and returns the mapped artifact: the
preexisting artifact on a duplicate key, the new one otherwise. -/
def pmSet (programs : List (String × ProgramArtifact)) (key : String)
    (artifact : ProgramArtifact) :
    List (String × ProgramArtifact) × ProgramArtifact :=
  match pmGet programs key with
  | some existing => (programs, existing)
  | none => ((key, artifact) :: programs, artifact)

/-- Claim C9: once Set has stored an artifact under a key the mapping never
changes: Get after Set returns what Set returned; a duplicate Set leaves the
map untouched and returns the original artifact; Sets under any key
preserve every established binding. -/
theorem cache_artifact_immutable :
    (∀ m k a, pmGet (pmSet m k a).1 k = some (pmSet m k a).2)
    ∧ (∀ m k a b, pmGet m k = some a → pmSet m k b = (m, a))
    ∧ (∀ m k a k2 b, pmGet m k = some a → pmGet (pmSet m k2 b).1 k = some a) := by
  refine ⟨?_, ?_, ?_⟩
  · intro m k a
    unfold pmSet
    cases hm : pmGet m k with
    | some e => simp [hm]
    | none => simp [pmGet]
  · intro m k a b h
    unfold pmSet
    rw [h]
  · intro m k a k2 b h
    unfold pmSet
    cases hm : pmGet m k2 with
    | some e => simpa using h
    | none =>
      simp only
      by_cases hk : k2 = k
      · rw [hk] at hm
        rw [hm] at h
        cases h
      · simp [pmGet, hk, h]

/-- Witness for C9 over a concrete one-entry cache. -/
theorem cache_artifact_immutable_witness :
    (pmGet [("k", ⟨"p", 1, [], 0⟩)] "k" = some ⟨"p", 1, [], 0⟩)
    ∧ pmSet [("k", ⟨"p", 1, [], 0⟩)] "k" ⟨"q", 2, [], 16⟩ =
      ([("k", ⟨"p", 1, [], 0⟩)], ⟨"p", 1, [], 0⟩)
    ∧ pmGet (pmSet [("k", ⟨"p", 1, [], 0⟩)] "k2" ⟨"q", 2, [], 16⟩).1 "k" =
      some ⟨"p", 1, [], 0⟩ := by
  refine ⟨by decide, ?_, ?_⟩
  · exact cache_artifact_immutable.2.1 [("k", ⟨"p", 1, [], 0⟩)] "k" ⟨"p", 1, [], 0⟩
      ⟨"q", 2, [], 16⟩ (by decide)
  · exact cache_artifact_immutable.2.2 [("k", ⟨"p", 1, [], 0⟩)] "k" ⟨"p", 1, [], 0⟩
      "k2" ⟨"q", 2, [], 16⟩ (by decide)

/-! Dispatch normalization: ProgramManager::NormalizeDispatchGroupSize.
The double-precision product / sqrt / cbrt / ceil chain is idealized to the
exact ceiling roots over Nat; the SafeInt<uint32_t> conversion of each
candidate is modelled as an explicit uint32 range check that fails (the
SafeInt exception) when the candidate exceeds the range. -/

/-- The uint32 range bound checked by SafeInt<uint32_t>. -/
def UINT32_MAX : Nat := 4294967295

theorem exists_sq_bound (n : Nat) : ∃ m, n ≤ m * m := by
  refine ⟨n, ?_⟩
  cases n with
  | zero => exact Nat.le_refl 0
  | succ k => exact Nat.le_mul_of_pos_left (k + 1) (Nat.succ_pos k)

theorem exists_cb_bound (n : Nat) : ∃ m, n ≤ m * m * m := by
  refine ⟨n, ?_⟩
  cases n with
  | zero => exact Nat.le_refl 0
  | succ k => exact Nat.le_mul_of_pos_left (k + 1) (by positivity)

/-- The exact ceiling square root: the least m with n ≤ m · m. -/
def ceilSqrtNat (n : Nat) : Nat := Nat.find (exists_sq_bound n)

/-- The exact ceiling cube root: the least m with n ≤ m · m · m. -/
def ceilCbrtNat (n : Nat) : Nat := Nat.find (exists_cb_bound n)

theorem ceilSqrtNat_spec (n : Nat) : n ≤ ceilSqrtNat n * ceilSqrtNat n :=
  Nat.find_spec (exists_sq_bound n)

theorem ceilSqrtNat_le {n m : Nat} (h : n ≤ m * m) : ceilSqrtNat n ≤ m :=
  Nat.find_min' (exists_sq_bound n) h

theorem lt_ceilSqrtNat {n m : Nat} (h : m * m < n) : m < ceilSqrtNat n := by
  by_contra hc
  push_neg at hc
  have := ceilSqrtNat_spec n
  have hmono : ceilSqrtNat n * ceilSqrtNat n ≤ m * m := Nat.mul_le_mul hc hc
  omega

theorem ceilCbrtNat_spec (n : Nat) : n ≤ ceilCbrtNat n * ceilCbrtNat n * ceilCbrtNat n :=
  Nat.find_spec (exists_cb_bound n)

theorem ceilCbrtNat_le {n m : Nat} (h : n ≤ m * m * m) : ceilCbrtNat n ≤ m :=
  Nat.find_min' (exists_cb_bound n) h

theorem lt_ceilCbrtNat {n m : Nat} (h : m * m * m < n) : m < ceilCbrtNat n := by
  by_contra hc
  push_neg at hc
  have := ceilCbrtNat_spec n
  have hmono : ceilCbrtNat n * ceilCbrtNat n * ceilCbrtNat n ≤ m * m * m :=
    Nat.mul_le_mul (Nat.mul_le_mul hc hc) hc
  omega

/-- NormalizeDispatchGroupSize: keep a dispatch already within the
per-dimension limit; otherwise try the ceiling square root of the total for
x and y (z = 1), then the ceiling cube root for all three dimensions, and
fail when even that exceeds the limit. Each candidate is also range-checked
by its SafeInt<uint32_t> conversion. -/
def normalizeDispatchGroupSize (limit x y z : Nat) : Option (Nat × Nat × Nat) :=
  if x ≤ limit ∧ y ≤ limit ∧ z ≤ limit then some (x, y, z)
  else if UINT32_MAX < ceilSqrtNat (x * y * z) then none
  else if limit < ceilSqrtNat (x * y * z) then
    (if UINT32_MAX < ceilCbrtNat (x * y * z) then none
     else if limit < ceilCbrtNat (x * y * z) then none
     else some (ceilCbrtNat (x * y * z), ceilCbrtNat (x * y * z),
       ceilCbrtNat (x * y * z)))
  else some (ceilSqrtNat (x * y * z), ceilSqrtNat (x * y * z), 1)

/-- Claim C5 (amended): for a positive per-dimension limit (in the uint32
range, as a device limit is), whenever NormalizeDispatchGroupSize returns a
dispatch, each dimension satisfies the per-dimension limit and the product
covers the requested product; it fails only when the square-root candidate
overflows the unsigned 32-bit range (the SafeInt conversion throws) or the
ceiling cube root of the requested product exceeds the limit. -/
theorem normalize_dispatch_bounds (limit x y z : Nat) (hlim : limit ≤ UINT32_MAX)
    (hpos : 0 < limit) :
    (∀ a b c, normalizeDispatchGroupSize limit x y z = some (a, b, c) →
      a ≤ limit ∧ b ≤ limit ∧ c ≤ limit ∧ x * y * z ≤ a * b * c)
    ∧ (normalizeDispatchGroupSize limit x y z = none →
      UINT32_MAX < ceilSqrtNat (x * y * z) ∨ limit < ceilCbrtNat (x * y * z)) := by
  constructor
  · intro a b c h
    unfold normalizeDispatchGroupSize at h
    split_ifs at h with h1 h2 h3 h4 h5
    · cases h
      exact ⟨h1.1, h1.2.1, h1.2.2, Nat.le_refl _⟩
    · cases h
      push_neg at h5
      refine ⟨h5, h5, h5, ?_⟩
      exact ceilCbrtNat_spec (x * y * z)
    · cases h
      push_neg at h3
      refine ⟨h3, h3, hpos, ?_⟩
      have := ceilSqrtNat_spec (x * y * z)
      omega
  · intro h
    unfold normalizeDispatchGroupSize at h
    split_ifs at h with h1 h2 h3 h4 h5
    · exact Or.inl h2
    · right
      unfold UINT32_MAX at hlim h4
      omega
    · exact Or.inr h5

/-- Counterexample to C5 as stated: with limit 2^22 = 4194304 and requested
dispatch (4294967295, 4294967295, 2), the square-root candidate exceeds the
uint32 range, so the SafeInt conversion fails the call — although the
ceiling cube root of the product satisfies the limit, so the claimed "fails
only when the cubic redistribution exceeds the limit" does not hold. -/
theorem normalize_dispatch_bounds_counterexample :
    normalizeDispatchGroupSize 4194304 4294967295 4294967295 2 = none
    ∧ ceilCbrtNat (4294967295 * 4294967295 * 2) ≤ 4194304
    ∧ normalizeDispatchGroupSize 0 1 0 0 = some (0, 0, 1) := by
  have hcb : ceilCbrtNat (4294967295 * 4294967295 * 2) ≤ 4194304 :=
    ceilCbrtNat_le (by norm_num)
  have hsq : UINT32_MAX < ceilSqrtNat (4294967295 * 4294967295 * 2) := by
    have : UINT32_MAX * UINT32_MAX < 4294967295 * 4294967295 * 2 := by
      norm_num [UINT32_MAX]
    exact lt_ceilSqrtNat this
  have hzero : ceilSqrtNat (1 * 0 * 0) = 0 := by
    have := ceilSqrtNat_le (show (1 * 0 * 0 : Nat) ≤ 0 * 0 by norm_num)
    omega
  refine ⟨?_, hcb, ?_⟩
  · unfold normalizeDispatchGroupSize
    rw [if_neg (by norm_num), if_pos hsq]
  · unfold normalizeDispatchGroupSize
    rw [hzero]
    norm_num [UINT32_MAX]

/-- Witness for C5 at a concrete in-limit dispatch. -/
theorem normalize_dispatch_bounds_witness :
    (2 : Nat) ≤ 65535 ∧ (1 : Nat) ≤ 65535 ∧ (1 : Nat) ≤ 65535 ∧
      (2 * 1 * 1 : Nat) ≤ 2 * 1 * 1 :=
  (normalize_dispatch_bounds 65535 2 1 1 (by norm_num [UINT32_MAX])
      (by norm_num)).1 2 1 1
    (by rw [show normalizeDispatchGroupSize 65535 2 1 1 = some (2, 1, 1) from
      if_pos (by norm_num)])

theorem ceilSqrt_1e10 : ceilSqrtNat (100000 * 100000 * 1) = 100000 := by
  have h1 : ceilSqrtNat (100000 * 100000 * 1) ≤ 100000 := ceilSqrtNat_le (by norm_num)
  have h2 : 99999 < ceilSqrtNat (100000 * 100000 * 1) := lt_ceilSqrtNat (by norm_num)
  omega

theorem ceilCbrt_1e10 : ceilCbrtNat (100000 * 100000 * 1) = 2155 := by
  have h1 : ceilCbrtNat (100000 * 100000 * 1) ≤ 2155 := ceilCbrtNat_le (by norm_num)
  have h2 : 2154 < ceilCbrtNat (100000 * 100000 * 1) := lt_ceilCbrtNat (by norm_num)
  omega

theorem normalize_1e10 :
    normalizeDispatchGroupSize 65535 100000 100000 1 = some (2155, 2155, 2155) := by
  unfold normalizeDispatchGroupSize
  rw [ceilSqrt_1e10, ceilCbrt_1e10]
  norm_num [UINT32_MAX]

/-- Claim C6 (amended): for requested dispatch (100000, 100000, 1) under
per-dimension limit 65535, the direct check fails, the square-root candidate
is exactly 100000 — above 65535 — and the ceiling cube-root candidate 2155
(the ceiling of the cube root of 10^10 ≈ 2154.43) is accepted and returned
for all three dimensions without failing. -/
theorem normalize_dispatch_example :
    ceilSqrtNat (100000 * 100000 * 1) = 100000
    ∧ 65535 < ceilSqrtNat (100000 * 100000 * 1)
    ∧ ceilCbrtNat (100000 * 100000 * 1) = 2155
    ∧ normalizeDispatchGroupSize 65535 100000 100000 1 = some (2155, 2155, 2155) := by
  refine ⟨ceilSqrt_1e10, ?_, ceilCbrt_1e10, normalize_1e10⟩
  rw [ceilSqrt_1e10]
  norm_num

/-- Counterexample to C6 as stated: the cube-root candidate for the product
10^10 is 2155, not approximately 46416 (46416 is the ceiling cube root of
10^14); the normalizer returns (2155, 2155, 2155). -/
theorem normalize_dispatch_example_counterexample :
    normalizeDispatchGroupSize 65535 100000 100000 1 = some (2155, 2155, 2155)
    ∧ ceilCbrtNat (100000 * 100000 * 1) = 2155
    ∧ (2155 : Nat) < 46416 := by
  exact ⟨normalize_1e10, ceilCbrt_1e10, by norm_num⟩

/-! Shader generation: ShaderHelper (shader_helper.h / shader_helper.cc).
The constants_ bookkeeping for workgroup sizes is not read by any claim and
is not modelled; everything else in MainFunctionBody, AddVariableImpl and
GetFinalSourceCode is. -/

/-- The wgpu::Limits fields read by the subsystem. -/
structure GpuLimits where
  maxComputeWorkgroupSizeX : Nat
  maxComputeWorkgroupSizeY : Nat
  maxComputeWorkgroupSizeZ : Nat
  maxComputeInvocationsPerWorkgroup : Nat
  maxStorageBuffersPerShaderStage : Nat
  maxComputeWorkgroupsPerDimension : Nat
  deriving DecidableEq

/-- The device capability read by the generator: the ShaderF16 feature. -/
structure GpuDevice where
  hasShaderF16 : Bool
  deriving DecidableEq

/-- ShaderVariableDataType. The invalid_type enumerator is rejected by every
ShaderVariable constructor and is therefore left out. -/
inductive ShaderVariableDataType
  | f32
  | vec2f32
  | vec4f32
  | f16
  | vec2f16
  | vec4f16
  | i32
  | vec2i32
  | vec4i32
  | u32
  | vec2u32
  | vec4u32
  | int64
  | uint64
  | vec4bool
  deriving DecidableEq

/-- ShaderVariable::StorageType. -/
def storageType : ShaderVariableDataType → String
  | .f32 => "f32"
  | .vec2f32 => "vec2<f32>"
  | .vec4f32 => "vec4<f32>"
  | .f16 => "f16"
  | .vec2f16 => "vec2<f16>"
  | .vec4f16 => "vec4<f16>"
  | .i32 => "i32"
  | .vec2i32 => "vec2<i32>"
  | .vec4i32 => "vec4<i32>"
  | .u32 => "u32"
  | .vec2u32 => "vec2<u32>"
  | .vec4u32 => "vec4<u32>"
  | .int64 => "vec2<u32>"
  | .uint64 => "vec2<u32>"
  | .vec4bool => "u32"

/-- A shader variable: name, type, and rank or concrete dims. -/
structure ShaderVariable where
  name : String
  type : ShaderVariableDataType
  rank : Nat
  dims : List Nat
  useUniform : Bool
  deriving DecidableEq

/-- ShaderVariableScope. -/
inductive ShaderVariableScope
  | Input
  | Output
  | Local
  deriving DecidableEq

/-- The mutable ShaderHelper state: the vars_ array, appended implementation
fragments, the entry-point body once set, and the use_f16_ flag. -/
structure ShaderHelperState where
  inputVars : List ShaderVariable
  outputVars : List ShaderVariable
  localVars : List ShaderVariable
  implementation : List String
  body : String
  useF16 : Bool
  deriving DecidableEq

/-- True for the three half-precision variable types. -/
def isF16Type : ShaderVariableDataType → Bool
  | .f16 => true
  | .vec2f16 => true
  | .vec4f16 => true
  | _ => false

/-- ShaderHelper::AddVariableImpl: enforce an input/output scope and a
storage-buffer budget, record half-precision use, and append the variable
to its scope. -/
def addVariableImpl (limits : GpuLimits) (st : ShaderHelperState)
    (scope : ShaderVariableScope) (v : ShaderVariable) :
    Except String ShaderHelperState :=
  if ¬((scope = ShaderVariableScope.Input ∨ scope = ShaderVariableScope.Output) ∧
      st.inputVars.length + st.outputVars.length <
        limits.maxStorageBuffersPerShaderStage) then
    Except.error "Too many storage buffers in shader."
  else
    let st2 := if isF16Type v.type then {st with useF16 := true} else st
    match scope with
    | .Input => Except.ok {st2 with inputVars := st2.inputVars ++ [v]}
    | .Output => Except.ok {st2 with outputVars := st2.outputVars ++ [v]}
    | .Local => Except.ok {st2 with localVars := st2.localVars ++ [v]}

/-- The generated entry-point text: the fixed header; for non-1-D
dispatches two extra builtin parameters; then the global index — taken
directly from the invocation id for 1-D dispatches, or computed by the
workgroup-id formula scaled by the workgroup volume otherwise — followed by
the caller-supplied body. -/
def mainFunctionBodyText (is1d : Bool) (body : String) : String :=
  "@compute @workgroup_size(workgroup_size_x, workgroup_size_y, workgroup_size_z)\nfn main(@builtin(global_invocation_id) global_id : vec3<u32>,\n        @builtin(workgroup_id) workgroup_id : vec3<u32>,\n        @builtin(local_invocation_id) local_id : vec3<u32>" ++
    (if is1d then ""
     else ",\n        @builtin(local_invocation_index) local_idx : u32,\n        @builtin(num_workgroups) num_workgroups : vec3<u32>") ++
    ") \x7b\n" ++
    (if is1d then "  let global_idx = global_id.x;\n  let local_idx = local_id.x;\n"
     else "  let global_idx = (workgroup_id.z * num_workgroups[0] * num_workgroups[1] + workgroup_id.y * num_workgroups[0] + workgroup_id.x)\n                     * (workgroup_size_x * workgroup_size_y * workgroup_size_z) + local_idx;\n") ++
    body ++ "\n\x7d\n"

/-- ShaderHelper::MainFunctionBody with an explicit workgroup size: the
ORT_ENFORCE checks in order (body not yet set, positive dimensions,
per-dimension limits, invocation budget), then the entry-point
construction. The dimensions are uint32, so the product check compares the
product reduced modulo 2^32. -/
def mainFunctionBody (limits : GpuLimits) (st : ShaderHelperState)
    (wx wy wz : Nat) (body : String) : Except String ShaderHelperState :=
  if ¬st.body = "" then
    Except.error "Main function body has already been set"
  else if ¬(0 < wx ∧ 0 < wy ∧ 0 < wz) then
    Except.error "Workgroup size must be greater than 0"
  else if ¬(wx ≤ limits.maxComputeWorkgroupSizeX ∧
      wy ≤ limits.maxComputeWorkgroupSizeY ∧
      wz ≤ limits.maxComputeWorkgroupSizeZ) then
    Except.error "Workgroup size exceeds the maximum allowed size"
  else if ¬((wx * wy * wz) % 4294967296 ≤ limits.maxComputeInvocationsPerWorkgroup) then
    Except.error "Workgroup size exceeds the maximum allowed invocations"
  else
    Except.ok {st with body := mainFunctionBodyText (wy == 1 && wz == 1) body}

/-- ShaderHelper::GuardAgainstOutOfBoundsWorkgroupSizes. -/
def guardAgainstOutOfBoundsWorkgroupSizes (size : String) : String :=
  "  if (global_idx >= " ++ size ++ ") \x7b return; \x7d\n"

/-- One field of the generated Uniforms struct: optional alignment
attribute, the name, and a scalar, vector or padded-array type. -/
def uniformFieldStr (u : ProgramUniformVariableValue) : String :=
  "  " ++
    (if u.dataType = .Float16 ∧ 4 < u.length then "@align(16) " else "") ++
    u.name ++ ": " ++
    (if 4 < u.length then
      (if u.dataType = .Float16 then
        "array<mat2x4<" ++ ProgramUniformVariableDataTypeName u.dataType ++ ">, " ++
          natDec ((u.length + 7) / 8) ++ ">"
       else
        "array<vec4<" ++ ProgramUniformVariableDataTypeName u.dataType ++ ">, " ++
          natDec ((u.length + 3) / 4) ++ ">")
     else if 1 < u.length then
      "vec" ++ natDec u.length ++ "<" ++
        ProgramUniformVariableDataTypeName u.dataType ++ ">"
     else ProgramUniformVariableDataTypeName u.dataType)

/-- One input binding declaration at a binding index. -/
def inputBindingStr (idx : Nat) (v : ShaderVariable) : String :=
  "@group(0) @binding(" ++ natDec idx ++ ") var<storage, read> " ++ v.name ++
    ": array<" ++ storageType v.type ++ ">;\n"

/-- One output binding declaration at a binding index. -/
def outputBindingStr (idx : Nat) (v : ShaderVariable) : String :=
  "@group(0) @binding(" ++ natDec idx ++ ") var<storage, read_write> " ++ v.name ++
    ": array<" ++ storageType v.type ++ ">;\n"

/-- Binding declarations with strictly increasing indices. -/
def bindingList (idx : Nat) (f : Nat → ShaderVariable → String) :
    List ShaderVariable → String
  | [] => ""
  | v :: rest => f idx v ++ bindingList (idx + 1) f rest

/-- Concatenate the appended implementation fragments, each followed by a
newline. -/
def concatNL : List String → String
  | [] => ""
  | s :: rest => s ++ "\n" ++ concatNL rest

/-- ShaderHelper::GetFinalSourceCode: enforce device f16 support when half
precision is used, then emit the enable directive, the workgroup-size
constants and overrides, the input and output bindings with increasing
indices, the uniform block when any uniforms exist, the indices-helper
placeholder, the implementation fragments, and the entry-point body. -/
def getFinalSourceCode (device : GpuDevice)
    (uniforms : List ProgramUniformVariableValue) (st : ShaderHelperState) :
    Except String String :=
  if st.useF16 = true ∧ device.hasShaderF16 = false then
    Except.error "requires f16 but the device does not support it."
  else
    Except.ok (
      (if st.useF16 then "enable f16;\n\n" else "") ++
      "const WORKGROUP_SIZE: u32 = 64;\noverride workgroup_size_x: u32 = WORKGROUP_SIZE;\noverride workgroup_size_y: u32 = 1;\noverride workgroup_size_z: u32 = 1;\n\n" ++
      bindingList 0 inputBindingStr st.inputVars ++
      bindingList st.inputVars.length outputBindingStr st.outputVars ++
      (if uniforms = [] then ""
       else
        "struct Uniforms \x7b\n" ++
          joinSepStr ",\n" (uniforms.map uniformFieldStr) ++
          "\x7d;\n@group(0) @binding(" ++
          natDec (st.inputVars.length + st.outputVars.length) ++
          ") var<uniform> uniforms: Uniforms;\n") ++
      "\n// TODO: add indices helper functions\n\n" ++
      concatNL st.implementation ++
      st.body)

/-- Claim C7: an entry point generated with workgroup-size y = z = 1
computes the global linear index directly from the first component of the
builtin global invocation id; any other workgroup size computes it with the
workgroup-id formula scaled by the workgroup volume
workgroup_size_x · workgroup_size_y · workgroup_size_z. -/
theorem mainFunctionBody_index_selection (limits : GpuLimits)
    (st st2 : ShaderHelperState) (wx wy wz : Nat) (body : String)
    (h : mainFunctionBody limits st wx wy wz body = Except.ok st2) :
    ((wy = 1 ∧ wz = 1) →
      ∃ a b, st2.body = a ++ "  let global_idx = global_id.x;\n" ++ b)
    ∧ (¬(wy = 1 ∧ wz = 1) →
      ∃ a b, st2.body =
        a ++ "  let global_idx = (workgroup_id.z * num_workgroups[0] * num_workgroups[1] + workgroup_id.y * num_workgroups[0] + workgroup_id.x)\n                     * (workgroup_size_x * workgroup_size_y * workgroup_size_z) + local_idx;\n" ++ b) := by
  unfold mainFunctionBody at h
  split_ifs at h with h1 h2 h3 h4
  cases h
  constructor
  · intro hc
    cases hb : (wy == 1 && wz == 1) with
    | false =>
      have : ¬(wy = 1 ∧ wz = 1) := by simpa using hb
      exact absurd hc this
    | true =>
      refine ⟨"@compute @workgroup_size(workgroup_size_x, workgroup_size_y, workgroup_size_z)\nfn main(@builtin(global_invocation_id) global_id : vec3<u32>,\n        @builtin(workgroup_id) workgroup_id : vec3<u32>,\n        @builtin(local_invocation_id) local_id : vec3<u32>" ++
        ") \x7b\n",
        "  let local_idx = local_id.x;\n" ++ body ++ "\n\x7d\n", ?_⟩
      have hsplit :
          ("  let global_idx = global_id.x;\n  let local_idx = local_id.x;\n" : String) =
            "  let global_idx = global_id.x;\n" ++ "  let local_idx = local_id.x;\n" := by
        decide
      show mainFunctionBodyText true body = _
      simp only [mainFunctionBodyText, if_true, hsplit, String.append_assoc,
        String.append_empty, String.empty_append]
  · intro hc
    cases hb : (wy == 1 && wz == 1) with
    | true =>
      have : wy = 1 ∧ wz = 1 := by simpa using hb
      exact absurd this hc
    | false =>
      refine ⟨"@compute @workgroup_size(workgroup_size_x, workgroup_size_y, workgroup_size_z)\nfn main(@builtin(global_invocation_id) global_id : vec3<u32>,\n        @builtin(workgroup_id) workgroup_id : vec3<u32>,\n        @builtin(local_invocation_id) local_id : vec3<u32>" ++
        ",\n        @builtin(local_invocation_index) local_idx : u32,\n        @builtin(num_workgroups) num_workgroups : vec3<u32>" ++
        ") \x7b\n",
        body ++ "\n\x7d\n", ?_⟩
      show mainFunctionBodyText false body = _
      simp only [mainFunctionBodyText, Bool.false_eq_true, if_false,
        String.append_assoc]

/-- Witness for C7 at a concrete 1-D call and a concrete 2-D call. -/
theorem mainFunctionBody_index_selection_witness :
    (∃ st2, mainFunctionBody ⟨256, 256, 64, 1024, 8, 65535⟩
        ⟨[], [], [], [], "", false⟩ 64 1 1 "BODY" = Except.ok st2 ∧
      ∃ a b, st2.body = a ++ "  let global_idx = global_id.x;\n" ++ b)
    ∧ (∃ st2, mainFunctionBody ⟨256, 256, 64, 1024, 8, 65535⟩
        ⟨[], [], [], [], "", false⟩ 8 8 1 "BODY" = Except.ok st2 ∧
      ∃ a b, st2.body =
        a ++ "  let global_idx = (workgroup_id.z * num_workgroups[0] * num_workgroups[1] + workgroup_id.y * num_workgroups[0] + workgroup_id.x)\n                     * (workgroup_size_x * workgroup_size_y * workgroup_size_z) + local_idx;\n" ++ b) := by
  constructor
  · refine ⟨_, rfl, ?_⟩
    exact (mainFunctionBody_index_selection ⟨256, 256, 64, 1024, 8, 65535⟩
      ⟨[], [], [], [], "", false⟩ _ 64 1 1 "BODY" rfl).1 ⟨rfl, rfl⟩
  · refine ⟨_, rfl, ?_⟩
    exact (mainFunctionBody_index_selection ⟨256, 256, 64, 1024, 8, 65535⟩
      ⟨[], [], [], [], "", false⟩ _ 8 8 1 "BODY" rfl).2 (by omega)

/-- Claim C8 (amended): shader generation fails with a descriptive error —
producing no source text — when any workgroup-size dimension is zero; when a
dimension exceeds its per-dimension device maximum; when the product of the
three dimensions, computed in unsigned 32-bit arithmetic (i.e. reduced
modulo 2^32, so a mathematical product of 2^32 or more wraps before the
comparison), exceeds the per-workgroup invocation maximum; when a variable
is added once the input plus output storage-buffer count has reached the
per-stage maximum; and when half precision is in use and the device lacks
the f16 feature. -/
theorem shader_generation_error_conditions (limits : GpuLimits) :
    (∀ st wx wy wz body, (wx = 0 ∨ wy = 0 ∨ wz = 0) →
      ∃ e, mainFunctionBody limits st wx wy wz body = Except.error e)
    ∧ (∀ st wx wy wz body,
      (limits.maxComputeWorkgroupSizeX < wx ∨ limits.maxComputeWorkgroupSizeY < wy ∨
        limits.maxComputeWorkgroupSizeZ < wz) →
      ∃ e, mainFunctionBody limits st wx wy wz body = Except.error e)
    ∧ (∀ st wx wy wz body,
      limits.maxComputeInvocationsPerWorkgroup < (wx * wy * wz) % 4294967296 →
      ∃ e, mainFunctionBody limits st wx wy wz body = Except.error e)
    ∧ (∀ st scope v,
      limits.maxStorageBuffersPerShaderStage ≤
          st.inputVars.length + st.outputVars.length →
      addVariableImpl limits st scope v =
        Except.error "Too many storage buffers in shader.")
    ∧ (∀ (device : GpuDevice) uniforms st, st.useF16 = true →
      device.hasShaderF16 = false →
      getFinalSourceCode device uniforms st =
        Except.error "requires f16 but the device does not support it.") := by
  have hok : ∀ st wx wy wz body st2,
      mainFunctionBody limits st wx wy wz body = Except.ok st2 →
      (0 < wx ∧ 0 < wy ∧ 0 < wz) ∧
        (wx ≤ limits.maxComputeWorkgroupSizeX ∧
          wy ≤ limits.maxComputeWorkgroupSizeY ∧
          wz ≤ limits.maxComputeWorkgroupSizeZ) ∧
        (wx * wy * wz) % 4294967296 ≤ limits.maxComputeInvocationsPerWorkgroup := by
    intro st wx wy wz body st2 h
    unfold mainFunctionBody at h
    split_ifs at h with h1 h2 h3 h4
    exact ⟨h2, h3, h4⟩
  refine ⟨?_, ?_, ?_, ?_, ?_⟩
  · intro st wx wy wz body hz
    cases hm : mainFunctionBody limits st wx wy wz body with
    | error e => exact ⟨e, rfl⟩
    | ok st2 =>
      have := (hok st wx wy wz body st2 hm).1
      omega
  · intro st wx wy wz body hgt
    cases hm : mainFunctionBody limits st wx wy wz body with
    | error e => exact ⟨e, rfl⟩
    | ok st2 =>
      have := (hok st wx wy wz body st2 hm).2.1
      omega
  · intro st wx wy wz body hgt
    cases hm : mainFunctionBody limits st wx wy wz body with
    | error e => exact ⟨e, rfl⟩
    | ok st2 =>
      have := (hok st wx wy wz body st2 hm).2.2
      omega
  · intro st scope v hfull
    unfold addVariableImpl
    rw [if_pos]
    intro hcond
    omega
  · intro device uniforms st hf16 hdev
    unfold getFinalSourceCode
    rw [if_pos ⟨hf16, hdev⟩]

/-- Counterexample to C8 as stated: with per-dimension maxima of 65536 and
an invocation maximum of 256, the workgroup size (65536, 65536, 1) has a
mathematical product of 2^32, which wraps to 0 in the 32-bit check, so
generation succeeds although the product exceeds the invocation maximum. -/
theorem shader_generation_error_conditions_counterexample :
    (∃ st2, mainFunctionBody ⟨65536, 65536, 65536, 256, 8, 65535⟩
        ⟨[], [], [], [], "", false⟩ 65536 65536 1 "BODY" = Except.ok st2)
    ∧ (256 : Nat) < 65536 * 65536 * 1 := by
  constructor
  · exact ⟨_, rfl⟩
  · norm_num

/-- Witness for C8: each error condition exercised at a concrete call. -/
theorem shader_generation_error_conditions_witness :
    (∃ e, mainFunctionBody ⟨8, 8, 8, 16, 2, 65535⟩ ⟨[], [], [], [], "", false⟩
      0 1 1 "B" = Except.error e)
    ∧ (∃ e, mainFunctionBody ⟨8, 8, 8, 16, 2, 65535⟩ ⟨[], [], [], [], "", false⟩
      9 1 1 "B" = Except.error e)
    ∧ (∃ e, mainFunctionBody ⟨8, 8, 8, 16, 2, 65535⟩ ⟨[], [], [], [], "", false⟩
      5 5 1 "B" = Except.error e)
    ∧ addVariableImpl ⟨8, 8, 8, 16, 2, 65535⟩
        ⟨[⟨"a", .f32, 1, [], true⟩, ⟨"b", .f32, 1, [], true⟩], [], [], [], "", false⟩
        ShaderVariableScope.Input ⟨"c", .f32, 1, [], true⟩ =
      Except.error "Too many storage buffers in shader."
    ∧ getFinalSourceCode ⟨false⟩ [] ⟨[], [], [], [], "", true⟩ =
      Except.error "requires f16 but the device does not support it." := by
  refine ⟨?_, ?_, ?_, ?_, ?_⟩
  · exact (shader_generation_error_conditions ⟨8, 8, 8, 16, 2, 65535⟩).1
      ⟨[], [], [], [], "", false⟩ 0 1 1 "B" (Or.inl rfl)
  · exact (shader_generation_error_conditions ⟨8, 8, 8, 16, 2, 65535⟩).2.1
      ⟨[], [], [], [], "", false⟩ 9 1 1 "B" (Or.inl (by norm_num))
  · exact (shader_generation_error_conditions ⟨8, 8, 8, 16, 2, 65535⟩).2.2.1
      ⟨[], [], [], [], "", false⟩ 5 5 1 "B" (by norm_num)
  · exact (shader_generation_error_conditions ⟨8, 8, 8, 16, 2, 65535⟩).2.2.2.1
      ⟨[⟨"a", .f32, 1, [], true⟩, ⟨"b", .f32, 1, [], true⟩], [], [], [], "", false⟩
      ShaderVariableScope.Input ⟨"c", .f32, 1, [], true⟩ (by norm_num)
  · exact (shader_generation_error_conditions ⟨8, 8, 8, 16, 2, 65535⟩).2.2.2.2
      ⟨false⟩ [] ⟨[], [], [], [], "", true⟩ rfl rfl

end WebgpuSpec
